import Mathlib

/-!
Shallow embedding of
`src/dde-file-manager/dfmplugin-disk-encrypt-entry/events/eventshandler.cpp`
(the disk-encryption event handler of a file-manager plugin).

The C++ layer keeps two registries (QHash) from device identifier to a live
progress-dialog pointer, one for encrypt and one for decrypt operations,
reacts to six daemon bus notifications, and services a synchronous
"acquire device password" hook.  The embedding models:

  * registries as association lists `List (String × EncryptProcessDialog)`;
  * each notification handler as a function from handler state to a new
    state together with the list of user-interface actions the C++ body
    performs, in the order it performs them (cursor restoration, dialog
    creation / update / show, modal advisory dialogs, reboot requests);
  * the modal interactions (the reboot-confirmation dialog's `exec()`
    result, the unlock dialog's result, the TPM collaborator's answer) as
    explicit inputs, since they come from outside this translation unit;
  * the credential-acquisition hook as a pure function from those inputs
    and the initial values of the two output slots to the final slot
    values, the returned Bool, and the advisories shown.

Numeric result codes: `kSuccess = 0` is written in the source logic; the
other enum constants live in a header that is not part of the provided
sources and are modelled from the spec's taxonomy (§6: negated magnitudes
1 = user-cancelled, 2 = wrong-passphrase, 3 = change-passphrase-failed,
plus a distinguished reboot-required sentinel).
-/

/-- Dialog severity, `dialog_utils::kInfo` / `dialog_utils::kError`. -/
inductive Severity where
  | kInfo
  | kError
  deriving DecidableEq, Repr

/-- A terminal advisory dialog: title, message and severity, as passed to
`dialog_utils::showDialog`. -/
structure Advisory where
  title : String
  msg : String
  sev : Severity
  deriving DecidableEq, Repr

/-- One user-interface action performed by a handler body, in program order:
`QApplication::restoreOverrideCursor`, `dialog_utils::showDialog`, creation /
update / `show()` of an `EncryptProcessDialog`, the modal reboot-confirmation
`DDialog`, and the outbound `RequestReboot` bus call. -/
inductive UIAction where
  | restoreCursor
  | showDialog (a : Advisory)
  | newProgressDialog (dev : String) (label : String)
  | updateProgress (dev : String) (p : ℚ)
  | showProgressDialog (dev : String)
  | execRebootDialog (title : String) (msg : String)
  | requestReboot
  deriving DecidableEq, Repr

/-- The state of one `EncryptProcessDialog` the registries point to.
`destroyRemovesEntry` records whether the handler connected the dialog's
`destroyed` signal to a slot removing the registry entry (the `connect` in
`onEncryptProgress`); the decrypt path performs no such `connect`. -/
structure EncryptProcessDialog where
  label : String
  progress : ℚ
  visible : Bool
  destroyRemovesEntry : Bool
  deriving DecidableEq, Repr

/-- Which of the two registries an operation uses. -/
inductive OpKind where
  | Encrypt
  | Decrypt
  deriving DecidableEq, Repr

/-- The handler's state: the two registries `encryptDialogs` and
`decryptDialogs` (QHash from device id to dialog). -/
structure HandlerState where
  encryptDialogs : List (String × EncryptProcessDialog)
  decryptDialogs : List (String × EncryptProcessDialog)
  deriving DecidableEq, Repr

/-- The state at construction: both registries empty. -/
def initState : HandlerState := ⟨[], []⟩

/-- `QHash::contains` on the association-list registry. -/
def containsKey (dev : String) : List (String × EncryptProcessDialog) → Bool
  | [] => false
  | e :: rest => if e.1 = dev then true else containsKey dev rest

/-- `QHash::value` on the association-list registry. -/
def lookupKey (dev : String) : List (String × EncryptProcessDialog) → Option EncryptProcessDialog
  | [] => none
  | e :: rest => if e.1 = dev then some e.2 else lookupKey dev rest

/-- `QHash::remove` on the association-list registry. -/
def removeKey (dev : String) : List (String × EncryptProcessDialog) → List (String × EncryptProcessDialog)
  | [] => []
  | e :: rest => if e.1 = dev then removeKey dev rest else e :: removeKey dev rest

/-- Mutation through the stored pointer: apply `f` to the dialog registered
under `dev`, leaving the registry's keys untouched. -/
def updateKey (dev : String) (f : EncryptProcessDialog → EncryptProcessDialog) :
    List (String × EncryptProcessDialog) → List (String × EncryptProcessDialog)
  | [] => []
  | e :: rest => (if e.1 = dev then (e.1, f e.2) else e) :: updateKey dev f rest

/-- How many entries of the registry carry key `dev`. -/
def countKey (dev : String) : List (String × EncryptProcessDialog) → Nat
  | [] => 0
  | e :: rest => (if e.1 = dev then 1 else 0) + countKey dev rest

/-- `disk_encrypt::kSuccess`: zero, the success code. -/
def kSuccess : Int := 0

/-- Modelled from the spec: `disk_encrypt::kUserCancelled`, the negated
magnitude 1 of the result-code taxonomy; the enum header is not among the
provided sources. -/
def kUserCancelled : Int := 1

/-- Modelled from the spec: `disk_encrypt::kErrorWrongPassphrase`, the
negated magnitude 2 of the result-code taxonomy; the enum header is not
among the provided sources. -/
def kErrorWrongPassphrase : Int := 2

/-- Modelled from the spec: `disk_encrypt::kErrorChangePassphraseFailed`,
the negated magnitude 3 of the result-code taxonomy; the enum header is not
among the provided sources. -/
def kErrorChangePassphraseFailed : Int := 3

/-- Modelled from the spec: `disk_encrypt::kRebootRequired`, the
distinguished reboot-required sentinel of the result-code taxonomy,
distinct from the magnitudes 0–3 above; its numeric value is not among the
provided sources, so a representative distinct value is used. -/
def kRebootRequired : Int := 4

/-- `EventsHandler::showPreEncryptError`: map a pre-encrypt result code to
the advisory dialog shown (`switch (-code)` in the source). -/
def showPreEncryptError (dev devName : String) (code : Int) : Advisory :=
  let device := devName ++ "(" ++ dev.drop 5 ++ ")"
  if -code = kSuccess then
    ⟨"Preencrypt done",
     "Device " ++ device ++ " has been preencrypt, please reboot to finish encryption.",
     Severity.kInfo⟩
  else if -code = kUserCancelled then
    ⟨"Encrypt disk", "User cancelled operation", Severity.kInfo⟩
  else
    ⟨"Preencrypt failed",
     "Device " ++ device ++ " preencrypt failed, please see log for more information.(" ++ toString code ++ ")",
     Severity.kError⟩

/-- `EventsHandler::showDecryptError`: map a decrypt result code to the
advisory dialog shown (`switch (-code)` in the source; `showFailed` starts
`true` and is cleared in the success and user-cancelled cases). -/
def showDecryptError (dev devName : String) (code : Int) : Advisory :=
  let device := devName ++ "(" ++ dev.drop 5 ++ ")"
  if -code = kSuccess then
    ⟨"Decrypt done", "Device " ++ device ++ " has been decrypted", Severity.kInfo⟩
  else if -code = kUserCancelled then
    ⟨"Decrypt disk", "User cancelled operation", Severity.kInfo⟩
  else if -code = kErrorWrongPassphrase then
    ⟨"Decrypt disk", "Wrong passpharse or PIN", Severity.kError⟩
  else
    ⟨"Decrypt failed",
     "Device " ++ device ++ " Decrypt failed, please see log for more information.(" ++ toString code ++ ")",
     Severity.kError⟩

/-- `EventsHandler::showChgPwdError`: map a change-passphrase result code to
the advisory dialog shown. -/
def showChgPwdError (dev devName : String) (code : Int) : Advisory :=
  let device := devName ++ "(" ++ dev.drop 5 ++ ")"
  if -code = kSuccess then
    ⟨"Change passphrase done", device ++ "'s passphrase has been changed", Severity.kInfo⟩
  else if -code = kUserCancelled then
    ⟨"Change passphrase", "User cancelled operation", Severity.kInfo⟩
  else if -code = kErrorChangePassphraseFailed then
    ⟨"Change passphrase failed", "Wrong passpharse or PIN", Severity.kError⟩
  else
    ⟨"Change passphrase failed",
     "Device " ++ device ++ " change passphrase failed, please see log for more information.(" ++ toString code ++ ")",
     Severity.kError⟩

/-- `EventsHandler::showRebootOnPreencrypted`: the modal two-button reboot
confirmation; `execChoice` is the `DDialog::exec()` result (button index),
and choosing button 1 ("Reboot now") issues the `RequestReboot` call. -/
def showRebootOnPreencrypted (device devName : String) (execChoice : Int) : List UIAction :=
  let dev := devName ++ "(" ++ device.drop 5 ++ ")"
  UIAction.execRebootDialog "Preencrypt done"
      ("Device " ++ dev ++ " has been preencrypt, please reboot to finish encryption.")
    :: (if execChoice = 1 then [UIAction.requestReboot] else [])

/-- `EventsHandler::showRebootOnDecrypted`: the modal two-button reboot
confirmation shown after a decrypt that needs a reboot. -/
def showRebootOnDecrypted (device devName : String) (execChoice : Int) : List UIAction :=
  let dev := devName ++ "(" ++ device.drop 5 ++ ")"
  UIAction.execRebootDialog "Decrypt device"
      ("Please reboot to decrypt device " ++ dev ++ ".")
    :: (if execChoice = 1 then [UIAction.requestReboot] else [])

/-- `EventsHandler::onPreencryptResult`: restore the cursor; on failure show
the mapped error, on success show the reboot confirmation.  The registries
are not touched.  `execChoice` models the user's answer to the modal reboot
dialog. -/
def onPreencryptResult (dev devName : String) (code : Int) (execChoice : Int)
    (s : HandlerState) : HandlerState × List UIAction :=
  if code ≠ kSuccess then
    (s, [UIAction.restoreCursor, UIAction.showDialog (showPreEncryptError dev devName code)])
  else
    (s, UIAction.restoreCursor :: showRebootOnPreencrypted dev devName execChoice)

/-- `EventsHandler::onEncryptResult`: restore the cursor; if the device has
an encrypt progress dialog, delete it and remove the registry entry (the
`delete` fires the dialog's `destroyed` slot, which removes the same key, so
the net registry effect is a single removal); then show the terminal
success / failure advisory. -/
def onEncryptResult (dev devName : String) (code : Int)
    (s : HandlerState) : HandlerState × List UIAction :=
  let s' := if containsKey dev s.encryptDialogs then
      { s with encryptDialogs := removeKey dev s.encryptDialogs }
    else s
  let device := devName ++ "(" ++ dev.drop 5 ++ ")"
  let adv : Advisory :=
    if code ≠ 0 then
      ⟨"Encrypt failed",
       "Device " ++ device ++ " encrypt failed, please see log for more information.(" ++ toString code ++ ")",
       Severity.kError⟩
    else
      ⟨"Encrypt done", "Device " ++ device ++ " has been encrypted", Severity.kInfo⟩
  (s', [UIAction.restoreCursor, UIAction.showDialog adv])

/-- `EventsHandler::onDecryptResult`: restore the cursor; drop the device's
decrypt progress dialog if present (`deleteLater` + `remove`); then either
show the reboot confirmation (when `code == -kRebootRequired`) or the mapped
outcome advisory. -/
def onDecryptResult (dev devName : String) (code : Int) (execChoice : Int)
    (s : HandlerState) : HandlerState × List UIAction :=
  let s' := if containsKey dev s.decryptDialogs then
      { s with decryptDialogs := removeKey dev s.decryptDialogs }
    else s
  if code = -kRebootRequired then
    (s', UIAction.restoreCursor :: showRebootOnDecrypted dev devName execChoice)
  else
    (s', [UIAction.restoreCursor, UIAction.showDialog (showDecryptError dev devName code)])

/-- `EventsHandler::onChgPassphraseResult`: restore the cursor and show the
mapped advisory; no registry involvement. -/
def onChgPassphraseResult (dev devName : String) (code : Int)
    (s : HandlerState) : HandlerState × List UIAction :=
  (s, [UIAction.restoreCursor, UIAction.showDialog (showChgPwdError dev devName code)])

/-- `EventsHandler::onEncryptProgress`: if the device has no encrypt dialog
yet, restore the cursor, build a new `EncryptProcessDialog` labelled
`"Encrypting...devName(dev.mid(5))"`, connect its `destroyed` signal to a
slot removing the registry entry, and register it; then update the (new or
existing) dialog's progress and show it. -/
def onEncryptProgress (dev devName : String) (progress : ℚ)
    (s : HandlerState) : HandlerState × List UIAction :=
  let device := devName ++ "(" ++ dev.drop 5 ++ ")"
  let label := "Encrypting..." ++ device
  let fresh : EncryptProcessDialog :=
    { label := label, progress := 0, visible := false, destroyRemovesEntry := true }
  let reg := if containsKey dev s.encryptDialogs then s.encryptDialogs
    else (dev, fresh) :: s.encryptDialogs
  let pre : List UIAction := if containsKey dev s.encryptDialogs then []
    else [UIAction.restoreCursor, UIAction.newProgressDialog dev label]
  ({ s with encryptDialogs :=
      updateKey dev (fun d => { d with progress := progress, visible := true }) reg },
   pre ++ [UIAction.updateProgress dev progress, UIAction.showProgressDialog dev])

/-- `EventsHandler::onDecryptProgress`: like the encrypt path, but the new
dialog is registered without connecting its `destroyed` signal to any
registry-cleanup slot. -/
def onDecryptProgress (dev devName : String) (progress : ℚ)
    (s : HandlerState) : HandlerState × List UIAction :=
  let device := devName ++ "(" ++ dev.drop 5 ++ ")"
  let label := "Decrypting..." ++ device
  let fresh : EncryptProcessDialog :=
    { label := label, progress := 0, visible := false, destroyRemovesEntry := false }
  let reg := if containsKey dev s.decryptDialogs then s.decryptDialogs
    else (dev, fresh) :: s.decryptDialogs
  let pre : List UIAction := if containsKey dev s.decryptDialogs then []
    else [UIAction.restoreCursor, UIAction.newProgressDialog dev label]
  ({ s with decryptDialogs :=
      updateKey dev (fun d => { d with progress := progress, visible := true }) reg },
   pre ++ [UIAction.updateProgress dev progress, UIAction.showProgressDialog dev])

/-- Qt semantics of a registered dialog being destroyed: the `destroyed`
signal runs whatever slots were connected to it.  The only such connection
in the source is the one `onEncryptProgress` makes (recorded here by
`destroyRemovesEntry`), whose slot removes the device's entry from the
dialog's registry; a dialog with no such connection leaves its registry
entry in place (in C++ the hash then holds a dangling pointer). -/
def onDialogDestroyed (k : OpKind) (dev : String) (s : HandlerState) : HandlerState :=
  match k with
  | OpKind.Encrypt =>
      match lookupKey dev s.encryptDialogs with
      | some d => if d.destroyRemovesEntry then
            { s with encryptDialogs := removeKey dev s.encryptDialogs }
          else s
      | none => s
  | OpKind.Decrypt =>
      match lookupKey dev s.decryptDialogs with
      | some d => if d.destroyRemovesEntry then
            { s with decryptDialogs := removeKey dev s.decryptDialogs }
          else s
      | none => s

/-- One inbound event of the handler's event loop: the six daemon
notifications (with the modal answers they may need) and the destruction of
a registered dialog. -/
inductive DaemonEvent where
  | preencryptResult (dev devName : String) (code : Int) (execChoice : Int)
  | encryptResult (dev devName : String) (code : Int)
  | encryptProgress (dev devName : String) (progress : ℚ)
  | decryptResult (dev devName : String) (code : Int) (execChoice : Int)
  | decryptProgress (dev devName : String) (progress : ℚ)
  | chgPassphraseResult (dev devName : String) (code : Int)
  | dialogDestroyed (k : OpKind) (dev : String)

/-- The state transition of one event (the UI actions are dropped). -/
def stepEvent (s : HandlerState) : DaemonEvent → HandlerState
  | DaemonEvent.preencryptResult dev devName code choice =>
      (onPreencryptResult dev devName code choice s).1
  | DaemonEvent.encryptResult dev devName code => (onEncryptResult dev devName code s).1
  | DaemonEvent.encryptProgress dev devName p => (onEncryptProgress dev devName p s).1
  | DaemonEvent.decryptResult dev devName code choice =>
      (onDecryptResult dev devName code choice s).1
  | DaemonEvent.decryptProgress dev devName p => (onDecryptProgress dev devName p s).1
  | DaemonEvent.chgPassphraseResult dev devName code =>
      (onChgPassphraseResult dev devName code s).1
  | DaemonEvent.dialogDestroyed k dev => onDialogDestroyed k dev s

/-- Run a sequence of events from the initial (empty-registries) state. -/
def runEvents (evs : List DaemonEvent) : HandlerState :=
  evs.foldl stepEvent initState

/-- `SecKeyType`: the credential scheme `device_utils::encKeyType` resolves
for a device.  The enum header is not among the provided sources; the
source's `switch` names `kTPMAndPIN`, `kTPMOnly` and `kPasswordOnly` and
funnels every other value into `default`, modelled by `kUnknownKey`. -/
inductive SecKeyType where
  | kPasswordOnly
  | kTPMOnly
  | kTPMAndPIN
  | kUnknownKey
  deriving DecidableEq, Repr

/-- The collaborators one invocation of the acquisition flow consults,
fixed as data: the resolved key type, the password-mode unlock dialog's
`exec()` result and entered key, the PIN-mode unlock dialog's `exec()`
result, whether its answer was a PIN (`keys.first == kPin`) and the entered
text, and the answer of `tpm_passphrase_utils::getPassphraseFromTPM` for
the single call the flow can make. -/
structure AcquireEnv where
  keyType : SecKeyType
  pwdDialogRet : Int
  pwdDialogKey : String
  pinDialogRet : Int
  pinDialogUsedPIN : Bool
  pinDialogKey : String
  tpmPassphrase : String
  deriving DecidableEq, Repr

/-- What `EventsHandler::onAcquireDevicePwd` leaves behind: the returned
Bool, the final values of the two output slots, and the advisory dialogs
shown during the call. -/
structure AcquireResult where
  ret : Bool
  pwd : String
  cancelled : Bool
  advisories : List Advisory
  deriving DecidableEq, Repr

/-- `EventsHandler::acquirePassphrase`: run the password-mode unlock dialog;
on anything but acceptance (`exec() != 1`) set the cancelled slot and return
the empty string, else return the entered key with the slot untouched. -/
def acquirePassphrase (env : AcquireEnv) (cancelled : Bool) : String × Bool :=
  if env.pwdDialogRet ≠ 1 then ("", true)
  else (env.pwdDialogKey, cancelled)

/-- `EventsHandler::acquirePassphraseByPIN`: run the PIN-mode unlock dialog;
on rejection set the cancelled slot and return the empty string; on a PIN
answer derive the passphrase through the TPM collaborator; on a direct
passphrase answer use it verbatim. -/
def acquirePassphraseByPIN (env : AcquireEnv) (cancelled : Bool) : String × Bool :=
  if env.pinDialogRet ≠ 1 then ("", true)
  else if env.pinDialogUsedPIN then (env.tpmPassphrase, cancelled)
  else (env.pinDialogKey, cancelled)

/-- `EventsHandler::acquirePassphraseByTPM`: ask the TPM collaborator with an
empty auxiliary input; the cancelled slot is never written. -/
def acquirePassphraseByTPM (env : AcquireEnv) (cancelled : Bool) : String × Bool :=
  (env.tpmPassphrase, cancelled)

/-- `EventsHandler::onAcquireDevicePwd`: the synchronous hook.  `pwdIsNull` /
`cancelledIsNull` model null output pointers (in which case the slots keep
their initial values `pwd0` / `cancelled0` and the hook returns false);
an unresolved key type also returns false; otherwise the scheme's sub-flow
runs, followed by the post-check that turns an empty, non-cancelled result
into a "use the recovery key" advisory plus a forced cancellation. -/
def onAcquireDevicePwd (env : AcquireEnv) (dev : String)
    (pwdIsNull cancelledIsNull : Bool) (pwd0 : String) (cancelled0 : Bool) : AcquireResult :=
  if pwdIsNull || cancelledIsNull then ⟨false, pwd0, cancelled0, []⟩
  else
    let sub : Option (String × Bool) :=
      match env.keyType with
      | SecKeyType.kTPMAndPIN => some (acquirePassphraseByPIN env cancelled0)
      | SecKeyType.kTPMOnly => some (acquirePassphraseByTPM env cancelled0)
      | SecKeyType.kPasswordOnly => some (acquirePassphrase env cancelled0)
      | SecKeyType.kUnknownKey => none
    match sub with
    | none => ⟨false, pwd0, cancelled0, []⟩
    | some (pwd, c) =>
      if pwd = "" ∧ c = false then
        let title :=
          if env.keyType = SecKeyType.kTPMAndPIN then "Wrong PIN"
          else if env.keyType = SecKeyType.kPasswordOnly then "Wrong passphrase"
          else "TPM error"
        ⟨true, pwd, true,
         [⟨title, "Please use recovery key to unlock device.", Severity.kInfo⟩]⟩
      else ⟨true, pwd, c, []⟩

/-- The user-facing device label the spec describes: the display name
followed, in parentheses, by the identifier with its first five characters
removed (`QString("%1(%2)").arg(devName).arg(dev.mid(5))`). -/
def deviceDisplay (dev devName : String) : String :=
  devName ++ "(" ++ dev.drop 5 ++ ")"

/-- At most one registry entry per device, in both registries: the invariant
the upsert discipline maintains. -/
def RegistryAtMostOne (s : HandlerState) : Prop :=
  ∀ d : String, countKey d s.encryptDialogs ≤ 1 ∧ countKey d s.decryptDialogs ≤ 1

theorem countKey_removeKey_self (dev : String) (m : List (String × EncryptProcessDialog)) :
    countKey dev (removeKey dev m) = 0 := by
  induction m with
  | nil => rfl
  | cons e rest ih =>
    by_cases h : e.1 = dev
    · simp [removeKey, h, ih]
    · simp [removeKey, h, countKey, ih]

theorem countKey_removeKey_le (d dev : String) (m : List (String × EncryptProcessDialog)) :
    countKey d (removeKey dev m) ≤ countKey d m := by
  induction m with
  | nil => exact Nat.le_refl 0
  | cons e rest ih =>
    by_cases h : e.1 = dev
    · simp only [removeKey, if_pos h, countKey]
      exact le_trans ih (Nat.le_add_left _ _)
    · simp only [removeKey, if_neg h, countKey]
      exact Nat.add_le_add_left ih _

theorem containsKey_removeKey_self (dev : String) (m : List (String × EncryptProcessDialog)) :
    containsKey dev (removeKey dev m) = false := by
  induction m with
  | nil => rfl
  | cons e rest ih =>
    by_cases h : e.1 = dev
    · simpa [removeKey, h] using ih
    · simp [removeKey, h, containsKey, ih]

theorem countKey_updateKey (d dev : String) (f : EncryptProcessDialog → EncryptProcessDialog)
    (m : List (String × EncryptProcessDialog)) :
    countKey d (updateKey dev f m) = countKey d m := by
  induction m with
  | nil => rfl
  | cons e rest ih =>
    by_cases h : e.1 = dev
    · simp [updateKey, h, countKey, ih]
    · simp [updateKey, h, countKey, ih]

theorem containsKey_updateKey (d dev : String) (f : EncryptProcessDialog → EncryptProcessDialog)
    (m : List (String × EncryptProcessDialog)) :
    containsKey d (updateKey dev f m) = containsKey d m := by
  induction m with
  | nil => rfl
  | cons e rest ih =>
    by_cases h : e.1 = dev
    · simp [updateKey, h, containsKey, ih]
    · simp [updateKey, h, containsKey, ih]

theorem length_updateKey (dev : String) (f : EncryptProcessDialog → EncryptProcessDialog)
    (m : List (String × EncryptProcessDialog)) :
    (updateKey dev f m).length = m.length := by
  induction m with
  | nil => rfl
  | cons e rest ih => simp [updateKey, ih]

theorem countKey_of_containsKey_false (dev : String) (m : List (String × EncryptProcessDialog))
    (h : containsKey dev m = false) : countKey dev m = 0 := by
  induction m with
  | nil => rfl
  | cons e rest ih =>
    by_cases he : e.1 = dev
    · simp [containsKey, he] at h
    · simp only [containsKey, if_neg he] at h
      simp [countKey, he, ih h]

theorem one_le_countKey_of_containsKey (dev : String) (m : List (String × EncryptProcessDialog))
    (h : containsKey dev m = true) : 1 ≤ countKey dev m := by
  induction m with
  | nil => simp [containsKey] at h
  | cons e rest ih =>
    by_cases he : e.1 = dev
    · simp only [countKey, if_pos he]
      omega
    · simp only [containsKey, if_neg he] at h
      simp only [countKey, if_neg he]
      have := ih h
      omega

theorem lookupKey_updateKey (dev : String) (f : EncryptProcessDialog → EncryptProcessDialog)
    (m : List (String × EncryptProcessDialog)) :
    lookupKey dev (updateKey dev f m) = (lookupKey dev m).map f := by
  induction m with
  | nil => rfl
  | cons e rest ih =>
    by_cases h : e.1 = dev
    · simp [updateKey, lookupKey, h]
    · simp [updateKey, lookupKey, h, ih]

theorem lookupKey_isSome_eq_containsKey (dev : String)
    (m : List (String × EncryptProcessDialog)) :
    (lookupKey dev m).isSome = containsKey dev m := by
  induction m with
  | nil => rfl
  | cons e rest ih =>
    by_cases h : e.1 = dev
    · simp [lookupKey, containsKey, h]
    · simp [lookupKey, containsKey, h, ih]

theorem onPreencryptResult_fst (dev devName : String) (code choice : Int) (s : HandlerState) :
    (onPreencryptResult dev devName code choice s).1 = s := by
  unfold onPreencryptResult
  split <;> rfl

theorem onChgPassphraseResult_fst (dev devName : String) (code : Int) (s : HandlerState) :
    (onChgPassphraseResult dev devName code s).1 = s := rfl

theorem onEncryptResult_fst (dev devName : String) (code : Int) (s : HandlerState) :
    (onEncryptResult dev devName code s).1 =
      if containsKey dev s.encryptDialogs then
        { s with encryptDialogs := removeKey dev s.encryptDialogs }
      else s := rfl

theorem onDecryptResult_fst (dev devName : String) (code choice : Int) (s : HandlerState) :
    (onDecryptResult dev devName code choice s).1 =
      if containsKey dev s.decryptDialogs then
        { s with decryptDialogs := removeKey dev s.decryptDialogs }
      else s := by
  unfold onDecryptResult
  split <;> split <;> rfl

theorem onEncryptProgress_enc (dev devName : String) (p : ℚ) (s : HandlerState) :
    ((onEncryptProgress dev devName p s).1).encryptDialogs =
      updateKey dev (fun d => { d with progress := p, visible := true })
        (if containsKey dev s.encryptDialogs then s.encryptDialogs
         else (dev, ⟨"Encrypting..." ++ (devName ++ "(" ++ dev.drop 5 ++ ")"),
                     0, false, true⟩) :: s.encryptDialogs) := rfl

theorem onEncryptProgress_dec (dev devName : String) (p : ℚ) (s : HandlerState) :
    ((onEncryptProgress dev devName p s).1).decryptDialogs = s.decryptDialogs := rfl

theorem onDecryptProgress_dec (dev devName : String) (p : ℚ) (s : HandlerState) :
    ((onDecryptProgress dev devName p s).1).decryptDialogs =
      updateKey dev (fun d => { d with progress := p, visible := true })
        (if containsKey dev s.decryptDialogs then s.decryptDialogs
         else (dev, ⟨"Decrypting..." ++ (devName ++ "(" ++ dev.drop 5 ++ ")"),
                     0, false, false⟩) :: s.decryptDialogs) := rfl

theorem onDecryptProgress_enc (dev devName : String) (p : ℚ) (s : HandlerState) :
    ((onDecryptProgress dev devName p s).1).encryptDialogs = s.encryptDialogs := rfl

theorem countKey_progressRegistry (d dev : String) (fresh : EncryptProcessDialog)
    (m : List (String × EncryptProcessDialog)) (hm : countKey d m ≤ 1)
    (f : EncryptProcessDialog → EncryptProcessDialog) :
    countKey d (updateKey dev f (if containsKey dev m then m else (dev, fresh) :: m)) ≤ 1 := by
  rw [countKey_updateKey]
  by_cases hc : containsKey dev m = true
  · simp [hc]
    exact hm
  · have hc' : containsKey dev m = false := by
      cases h : containsKey dev m
      · rfl
      · exact absurd h hc
    simp only [hc', if_neg (by simp [hc'] : ¬(containsKey dev m = true)), countKey]
    by_cases hd : dev = d
    · subst hd
      rw [countKey_of_containsKey_false dev m hc']
      simp
    · simp only [if_neg hd]
      omega

theorem stepEvent_preserves (s : HandlerState) (e : DaemonEvent)
    (h : RegistryAtMostOne s) : RegistryAtMostOne (stepEvent s e) := by
  intro d
  cases e with
  | preencryptResult dev devName code choice =>
    simpa [stepEvent, onPreencryptResult_fst] using h d
  | chgPassphraseResult dev devName code =>
    simpa [stepEvent, onChgPassphraseResult_fst] using h d
  | encryptResult dev devName code =>
    simp only [stepEvent, onEncryptResult_fst]
    split
    · exact ⟨le_trans (countKey_removeKey_le d dev s.encryptDialogs) (h d).1, (h d).2⟩
    · exact h d
  | decryptResult dev devName code choice =>
    simp only [stepEvent, onDecryptResult_fst]
    split
    · exact ⟨(h d).1, le_trans (countKey_removeKey_le d dev s.decryptDialogs) (h d).2⟩
    · exact h d
  | encryptProgress dev devName p =>
    constructor
    · rw [show stepEvent s (DaemonEvent.encryptProgress dev devName p) =
          (onEncryptProgress dev devName p s).1 from rfl, onEncryptProgress_enc]
      exact countKey_progressRegistry d dev _ s.encryptDialogs (h d).1 _
    · rw [show stepEvent s (DaemonEvent.encryptProgress dev devName p) =
          (onEncryptProgress dev devName p s).1 from rfl, onEncryptProgress_dec]
      exact (h d).2
  | decryptProgress dev devName p =>
    constructor
    · rw [show stepEvent s (DaemonEvent.decryptProgress dev devName p) =
          (onDecryptProgress dev devName p s).1 from rfl, onDecryptProgress_enc]
      exact (h d).1
    · rw [show stepEvent s (DaemonEvent.decryptProgress dev devName p) =
          (onDecryptProgress dev devName p s).1 from rfl, onDecryptProgress_dec]
      exact countKey_progressRegistry d dev _ s.decryptDialogs (h d).2 _
  | dialogDestroyed k dev =>
    cases k with
    | Encrypt =>
      simp only [stepEvent, onDialogDestroyed]
      rcases hl : lookupKey dev s.encryptDialogs with _ | dlg
      · exact h d
      · by_cases hf : dlg.destroyRemovesEntry = true
        · simp only [hf, if_true]
          exact ⟨le_trans (countKey_removeKey_le d dev s.encryptDialogs) (h d).1, (h d).2⟩
        · simp only [hf, if_false]
          exact h d
    | Decrypt =>
      simp only [stepEvent, onDialogDestroyed]
      rcases hl : lookupKey dev s.decryptDialogs with _ | dlg
      · exact h d
      · by_cases hf : dlg.destroyRemovesEntry = true
        · simp only [hf, if_true]
          exact ⟨(h d).1, le_trans (countKey_removeKey_le d dev s.decryptDialogs) (h d).2⟩
        · simp only [hf, if_false]
          exact h d

theorem registryAtMostOne_init : RegistryAtMostOne initState := by
  intro d
  exact ⟨Nat.zero_le 1, Nat.zero_le 1⟩

theorem registryAtMostOne_runEvents (evs : List DaemonEvent) :
    RegistryAtMostOne (runEvents evs) := by
  have step : ∀ (l : List DaemonEvent) (s : HandlerState), RegistryAtMostOne s →
      RegistryAtMostOne (l.foldl stepEvent s) := by
    intro l
    induction l with
    | nil => intro s hs; exact hs
    | cons e rest ih => intro s hs; exact ih _ (stepEvent_preserves s e hs)
  exact step evs initState registryAtMostOne_init

theorem lookupKey_cons_self (dev : String) (x : EncryptProcessDialog)
    (m : List (String × EncryptProcessDialog)) :
    lookupKey dev ((dev, x) :: m) = some x := by
  simp [lookupKey]

theorem onDecryptResult_snd (dev devName : String) (code choice : Int) (s : HandlerState) :
    (onDecryptResult dev devName code choice s).2 =
      if code = -kRebootRequired then
        UIAction.restoreCursor :: showRebootOnDecrypted dev devName choice
      else
        [UIAction.restoreCursor, UIAction.showDialog (showDecryptError dev devName code)] := by
  unfold onDecryptResult
  split <;> split <;> rfl

theorem upsert_spec (dev : String) (fresh : EncryptProcessDialog)
    (m : List (String × EncryptProcessDialog)) (hm : countKey dev m ≤ 1) (p : ℚ) :
    countKey dev (updateKey dev (fun d => { d with progress := p, visible := true })
        (if containsKey dev m then m else (dev, fresh) :: m)) = 1 ∧
    (updateKey dev (fun d => { d with progress := p, visible := true })
        (if containsKey dev m then m else (dev, fresh) :: m)).length =
      (if containsKey dev m then m.length else m.length + 1) ∧
    (lookupKey dev (updateKey dev (fun d => { d with progress := p, visible := true })
        (if containsKey dev m then m else (dev, fresh) :: m))).map
        (fun d => d.progress) = some p := by
  by_cases hc : containsKey dev m = true
  · refine ⟨?_, ?_, ?_⟩
    · rw [if_pos hc, countKey_updateKey]
      exact Nat.le_antisymm hm (one_le_countKey_of_containsKey dev m hc)
    · rw [if_pos hc, if_pos hc, length_updateKey]
    · rw [if_pos hc, lookupKey_updateKey]
      obtain ⟨d0, hd0⟩ : ∃ d0, lookupKey dev m = some d0 := by
        have hsome := lookupKey_isSome_eq_containsKey dev m
        rw [hc] at hsome
        exact Option.isSome_iff_exists.mp hsome
      simp [hd0]
  · have hc' : containsKey dev m = false := by
      cases h2 : containsKey dev m
      · rfl
      · exact absurd h2 hc
    refine ⟨?_, ?_, ?_⟩
    · rw [if_neg hc, countKey_updateKey]
      simp [countKey, countKey_of_containsKey_false dev m hc']
    · rw [if_neg hc, if_neg hc, length_updateKey]
      rfl
    · rw [if_neg hc, lookupKey_updateKey, lookupKey_cons_self]
      simp

/-- C4: for every device and both operation kinds, the terminal result
handler removes the device's entry from the corresponding registry, and
running the same removal path again immediately afterwards leaves the whole
state unchanged (double removal is a no-op, not an error). -/
theorem result_removal_idempotent (dev devName : String) (code choice : Int) (s : HandlerState) :
    containsKey dev ((onEncryptResult dev devName code s).1).encryptDialogs = false ∧
    (onEncryptResult dev devName code ((onEncryptResult dev devName code s).1)).1 =
      (onEncryptResult dev devName code s).1 ∧
    containsKey dev ((onDecryptResult dev devName code choice s).1).decryptDialogs = false ∧
    (onDecryptResult dev devName code choice ((onDecryptResult dev devName code choice s).1)).1 =
      (onDecryptResult dev devName code choice s).1 := by
  have hE : containsKey dev ((onEncryptResult dev devName code s).1).encryptDialogs = false := by
    rw [onEncryptResult_fst]
    cases hc : containsKey dev s.encryptDialogs with
    | false => simp [hc]
    | true => simp [containsKey_removeKey_self]
  have hD : containsKey dev ((onDecryptResult dev devName code choice s).1).decryptDialogs = false := by
    rw [onDecryptResult_fst]
    cases hc : containsKey dev s.decryptDialogs with
    | false => simp [hc]
    | true => simp [containsKey_removeKey_self]
  refine ⟨hE, ?_, hD, ?_⟩
  · rw [onEncryptResult_fst dev devName code ((onEncryptResult dev devName code s).1)]
    simp [hE]
  · rw [onDecryptResult_fst dev devName code choice ((onDecryptResult dev devName code choice s).1)]
    simp [hD]

/-- C5: for every device and result code, the decrypt-result handler removes
the device's entry from the decrypt registry, then presents the
reboot-confirmation dialog exactly when the code equals the negated
`kRebootRequired` sentinel, and the mapped outcome advisory in every other
case (never both). -/
theorem decrypt_result_removes_then_presents (dev devName : String) (code choice : Int)
    (s : HandlerState) :
    containsKey dev ((onDecryptResult dev devName code choice s).1).decryptDialogs = false ∧
    (if code = -kRebootRequired then
       (∃ t m, UIAction.execRebootDialog t m ∈ (onDecryptResult dev devName code choice s).2) ∧
         ∀ a : Advisory, UIAction.showDialog a ∉ (onDecryptResult dev devName code choice s).2
     else
       UIAction.showDialog (showDecryptError dev devName code) ∈
           (onDecryptResult dev devName code choice s).2 ∧
         ∀ t m : String, UIAction.execRebootDialog t m ∉ (onDecryptResult dev devName code choice s).2) := by
  constructor
  · rw [onDecryptResult_fst]
    cases hc : containsKey dev s.decryptDialogs with
    | false => simp [hc]
    | true => simp [containsKey_removeKey_self]
  · by_cases hr : code = -kRebootRequired
    · rw [if_pos hr, onDecryptResult_snd, if_pos hr]
      constructor
      · exact ⟨"Decrypt device",
          "Please reboot to decrypt device " ++ (devName ++ "(" ++ dev.drop 5 ++ ")") ++ ".",
          by simp [showRebootOnDecrypted]⟩
      · intro a
        by_cases hch : choice = 1 <;> simp [showRebootOnDecrypted, hch]
    · rw [if_neg hr, onDecryptResult_snd, if_neg hr]
      constructor
      · simp
      · intro t m
        simp

/-- C7: along any event sequence from the initial state each registry holds
at most one entry per device; a progress notification leaves exactly one
entry for its device — growing the registry by one exactly when the device
was absent — and the surviving entry's progress is the delivered value. -/
theorem progress_upsert_unique_entry (evs : List DaemonEvent) (dev devName : String) (p : ℚ) :
    countKey dev (runEvents evs).encryptDialogs ≤ 1 ∧
    countKey dev (runEvents evs).decryptDialogs ≤ 1 ∧
    countKey dev ((onEncryptProgress dev devName p (runEvents evs)).1).encryptDialogs = 1 ∧
    ((onEncryptProgress dev devName p (runEvents evs)).1).encryptDialogs.length =
      (if containsKey dev (runEvents evs).encryptDialogs then
         (runEvents evs).encryptDialogs.length
       else (runEvents evs).encryptDialogs.length + 1) ∧
    (lookupKey dev ((onEncryptProgress dev devName p (runEvents evs)).1).encryptDialogs).map
        (fun d => d.progress) = some p ∧
    countKey dev ((onDecryptProgress dev devName p (runEvents evs)).1).decryptDialogs = 1 ∧
    ((onDecryptProgress dev devName p (runEvents evs)).1).decryptDialogs.length =
      (if containsKey dev (runEvents evs).decryptDialogs then
         (runEvents evs).decryptDialogs.length
       else (runEvents evs).decryptDialogs.length + 1) ∧
    (lookupKey dev ((onDecryptProgress dev devName p (runEvents evs)).1).decryptDialogs).map
        (fun d => d.progress) = some p := by
  obtain ⟨he, hd⟩ := registryAtMostOne_runEvents evs dev
  have H1 := upsert_spec dev
    ⟨"Encrypting..." ++ (devName ++ "(" ++ dev.drop 5 ++ ")"), 0, false, true⟩
    (runEvents evs).encryptDialogs he p
  have H2 := upsert_spec dev
    ⟨"Decrypting..." ++ (devName ++ "(" ++ dev.drop 5 ++ ")"), 0, false, false⟩
    (runEvents evs).decryptDialogs hd p
  rw [onEncryptProgress_enc, onDecryptProgress_dec]
  exact ⟨he, hd, H1.1, H1.2.1, H1.2.2, H2.1, H2.2.1, H2.2.2⟩

/-- C3 fails as stated: at the concrete input below, a first decrypt
progress notification creates the registry entry, yet the destruction event
of that very dialog leaves the entry in the decrypt registry, because
`onDecryptProgress` never connects the dialog's destruction to a cleanup
slot. -/
theorem decrypt_destroy_keeps_entry_cex :
    containsKey "/dev/sda1"
        ((onDecryptProgress "/dev/sda1" "data" 0 initState).1).decryptDialogs = true ∧
    containsKey "/dev/sda1"
        (onDialogDestroyed OpKind.Decrypt "/dev/sda1"
          ((onDecryptProgress "/dev/sda1" "data" 0 initState).1)).decryptDialogs = true := by
  constructor
  · rfl
  · rfl

/-- C3 amended: only the Encrypt-kind upsert arranges that the new dialog's
destruction event removes the registry entry; the Decrypt-kind upsert
registers the dialog without any such connection, so the decrypt entry
survives its dialog's destruction. -/
theorem upsert_destroy_cleanup_encrypt_only (dev devName : String) (p : ℚ) (s : HandlerState)
    (he : containsKey dev s.encryptDialogs = false)
    (hd : containsKey dev s.decryptDialogs = false) :
    containsKey dev
        (onDialogDestroyed OpKind.Encrypt dev
          ((onEncryptProgress dev devName p s).1)).encryptDialogs = false ∧
    containsKey dev
        (onDialogDestroyed OpKind.Decrypt dev
          ((onDecryptProgress dev devName p s).1)).decryptDialogs = true := by
  have hne : ¬(containsKey dev s.encryptDialogs = true) := by simp [he]
  have hnd : ¬(containsKey dev s.decryptDialogs = true) := by simp [hd]
  have hlookE : lookupKey dev ((onEncryptProgress dev devName p s).1).encryptDialogs =
      some ⟨"Encrypting..." ++ (devName ++ "(" ++ dev.drop 5 ++ ")"), p, true, true⟩ := by
    rw [onEncryptProgress_enc, if_neg hne, lookupKey_updateKey, lookupKey_cons_self]
    rfl
  have hlookD : lookupKey dev ((onDecryptProgress dev devName p s).1).decryptDialogs =
      some ⟨"Decrypting..." ++ (devName ++ "(" ++ dev.drop 5 ++ ")"), p, true, false⟩ := by
    rw [onDecryptProgress_dec, if_neg hnd, lookupKey_updateKey, lookupKey_cons_self]
    rfl
  constructor
  · show containsKey dev
        (onDialogDestroyed OpKind.Encrypt dev ((onEncryptProgress dev devName p s).1)).encryptDialogs = false
    unfold onDialogDestroyed
    rw [hlookE]
    simp [containsKey_removeKey_self]
  · unfold onDialogDestroyed
    rw [hlookD]
    simp only [Bool.false_eq_true, if_false]
    rw [onDecryptProgress_dec, if_neg hnd, containsKey_updateKey]
    simp [containsKey]

theorem upsert_destroy_cleanup_encrypt_only_witness :
    containsKey "/dev/sda1"
        (onDialogDestroyed OpKind.Encrypt "/dev/sda1"
          ((onEncryptProgress "/dev/sda1" "data" 0 initState).1)).encryptDialogs = false ∧
    containsKey "/dev/sda1"
        (onDialogDestroyed OpKind.Decrypt "/dev/sda1"
          ((onDecryptProgress "/dev/sda1" "data" 0 initState).1)).decryptDialogs = true :=
  upsert_destroy_cleanup_encrypt_only "/dev/sda1" "data" 0 initState rfl rfl

/-- C8 fails as stated: at the concrete input below, the second encrypt
progress notification for an already-registered device shows the progress
dialog while performing no busy-cursor clearing at all. -/
theorem progress_update_no_cursor_restore_cex :
    UIAction.showProgressDialog "/dev/sda1" ∈
        (onEncryptProgress "/dev/sda1" "data" 1
          ((onEncryptProgress "/dev/sda1" "data" 0 initState).1)).2 ∧
    UIAction.restoreCursor ∉
        (onEncryptProgress "/dev/sda1" "data" 1
          ((onEncryptProgress "/dev/sda1" "data" 0 initState).1)).2 := by
  constructor
  · decide
  · decide

/-- C8 amended: the four result handlers clear the busy cursor as their
first action, before any dialog; the two progress handlers do so exactly on
their creation path — when the device is already registered they show the
existing progress dialog without touching the cursor. -/
theorem handlers_restore_cursor_discipline (dev devName : String) (code choice : Int)
    (p : ℚ) (s : HandlerState) :
    ((onPreencryptResult dev devName code choice s).2).head? = some UIAction.restoreCursor ∧
    ((onEncryptResult dev devName code s).2).head? = some UIAction.restoreCursor ∧
    ((onDecryptResult dev devName code choice s).2).head? = some UIAction.restoreCursor ∧
    ((onChgPassphraseResult dev devName code s).2).head? = some UIAction.restoreCursor ∧
    (containsKey dev s.encryptDialogs = false →
      ((onEncryptProgress dev devName p s).2).head? = some UIAction.restoreCursor) ∧
    (containsKey dev s.encryptDialogs = true →
      UIAction.restoreCursor ∉ (onEncryptProgress dev devName p s).2) ∧
    (containsKey dev s.decryptDialogs = false →
      ((onDecryptProgress dev devName p s).2).head? = some UIAction.restoreCursor) ∧
    (containsKey dev s.decryptDialogs = true →
      UIAction.restoreCursor ∉ (onDecryptProgress dev devName p s).2) := by
  refine ⟨?_, ?_, ?_, ?_, ?_, ?_, ?_, ?_⟩
  · unfold onPreencryptResult
    split <;> rfl
  · rfl
  · rw [show ((onDecryptResult dev devName code choice s).2).head? =
        (if code = -kRebootRequired then
           UIAction.restoreCursor :: showRebootOnDecrypted dev devName choice
         else
           [UIAction.restoreCursor,
            UIAction.showDialog (showDecryptError dev devName code)]).head? from
      by rw [onDecryptResult_snd]]
    split <;> rfl
  · rfl
  · intro hc
    have hnc : ¬(containsKey dev s.encryptDialogs = true) := by simp [hc]
    unfold onEncryptProgress
    simp [if_neg hnc]
  · intro hc
    unfold onEncryptProgress
    simp [if_pos hc]
  · intro hc
    have hnc : ¬(containsKey dev s.decryptDialogs = true) := by simp [hc]
    unfold onDecryptProgress
    simp [if_neg hnc]
  · intro hc
    unfold onDecryptProgress
    simp [if_pos hc]

/-- C6: the decrypt outcome mapping sends 0 to ("Decrypt done", informational),
the negated user-cancelled code to ("Decrypt disk", "User cancelled
operation", informational), the negated wrong-passphrase code to an error
advisory whose message names the wrong passphrase / PIN, and every other
integer to the generic failure branch whose message carries the raw numeric
code — the mapping is total over ℤ. -/
theorem decrypt_outcome_mapping (dev devName : String) (code : Int) :
    (showDecryptError dev devName 0).title = "Decrypt done" ∧
    (showDecryptError dev devName 0).sev = Severity.kInfo ∧
    showDecryptError dev devName (-kUserCancelled) =
      ⟨"Decrypt disk", "User cancelled operation", Severity.kInfo⟩ ∧
    (showDecryptError dev devName (-kErrorWrongPassphrase)).sev = Severity.kError ∧
    (showDecryptError dev devName (-kErrorWrongPassphrase)).msg = "Wrong passpharse or PIN" ∧
    (code ≠ 0 → code ≠ -kUserCancelled → code ≠ -kErrorWrongPassphrase →
      (showDecryptError dev devName code).sev = Severity.kError ∧
      ∃ pre post, (showDecryptError dev devName code).msg = pre ++ toString code ++ post) := by
  refine ⟨?_, ?_, ?_, ?_, ?_, ?_⟩
  · norm_num [showDecryptError, kSuccess]
  · norm_num [showDecryptError, kSuccess]
  · norm_num [showDecryptError, kSuccess, kUserCancelled]
  · norm_num [showDecryptError, kSuccess, kUserCancelled, kErrorWrongPassphrase]
  · norm_num [showDecryptError, kSuccess, kUserCancelled, kErrorWrongPassphrase]
  · intro h0 h1 h2
    simp only [kUserCancelled] at h1
    simp only [kErrorWrongPassphrase] at h2
    have c0 : ¬(-code = kSuccess) := by simp only [kSuccess]; omega
    have c1 : ¬(-code = kUserCancelled) := by simp only [kUserCancelled]; omega
    have c2 : ¬(-code = kErrorWrongPassphrase) := by simp only [kErrorWrongPassphrase]; omega
    constructor
    · simp only [showDecryptError, if_neg c0, if_neg c1, if_neg c2]
    · refine ⟨"Device " ++ (devName ++ "(" ++ dev.drop 5 ++ ")") ++
        " Decrypt failed, please see log for more information.(", ")", ?_⟩
      simp only [showDecryptError, if_neg c0, if_neg c1, if_neg c2]

/-- C10: every place a notification displays the device builds the label as
the display name followed by the identifier minus its first five characters,
in parentheses — in the encrypt result advisory, the device-mentioning
branches of the pre-encrypt / decrypt / change-passphrase outcome maps, the
labels of newly created progress dialogs, and both reboot-confirmation
dialogs. -/
theorem device_label_formatting (dev devName : String) (code choice : Int) (p : ℚ)
    (s : HandlerState) :
    deviceDisplay dev devName = devName ++ "(" ++ dev.drop 5 ++ ")" ∧
    (∃ a : Advisory, UIAction.showDialog a ∈ (onEncryptResult dev devName code s).2 ∧
      ∃ pre post, a.msg = pre ++ deviceDisplay dev devName ++ post) ∧
    (code ≠ -kUserCancelled → ∃ pre post,
      (showPreEncryptError dev devName code).msg = pre ++ deviceDisplay dev devName ++ post) ∧
    (code ≠ -kUserCancelled → code ≠ -kErrorWrongPassphrase → ∃ pre post,
      (showDecryptError dev devName code).msg = pre ++ deviceDisplay dev devName ++ post) ∧
    (code ≠ -kUserCancelled → code ≠ -kErrorChangePassphraseFailed → ∃ pre post,
      (showChgPwdError dev devName code).msg = pre ++ deviceDisplay dev devName ++ post) ∧
    (containsKey dev s.encryptDialogs = false → ∃ rest,
      (onEncryptProgress dev devName p s).2 =
        UIAction.restoreCursor ::
          UIAction.newProgressDialog dev ("Encrypting..." ++ deviceDisplay dev devName) :: rest) ∧
    (containsKey dev s.decryptDialogs = false → ∃ rest,
      (onDecryptProgress dev devName p s).2 =
        UIAction.restoreCursor ::
          UIAction.newProgressDialog dev ("Decrypting..." ++ deviceDisplay dev devName) :: rest) ∧
    (∃ pre post rest, showRebootOnPreencrypted dev devName choice =
      UIAction.execRebootDialog "Preencrypt done" (pre ++ deviceDisplay dev devName ++ post) :: rest) ∧
    (∃ pre post rest, showRebootOnDecrypted dev devName choice =
      UIAction.execRebootDialog "Decrypt device" (pre ++ deviceDisplay dev devName ++ post) :: rest) := by
  refine ⟨rfl, ?_, ?_, ?_, ?_, ?_, ?_, ?_, ?_⟩
  · by_cases hc : code = 0
    · refine ⟨⟨"Encrypt done",
        "Device " ++ (devName ++ "(" ++ dev.drop 5 ++ ")") ++ " has been encrypted",
        Severity.kInfo⟩, ?_, "Device ", " has been encrypted", ?_⟩
      · simp [onEncryptResult, hc]
      · simp only [deviceDisplay, String.empty_append, String.append_assoc]
    · refine ⟨⟨"Encrypt failed",
        "Device " ++ (devName ++ "(" ++ dev.drop 5 ++ ")") ++
          " encrypt failed, please see log for more information.(" ++ toString code ++ ")",
        Severity.kError⟩, ?_,
        "Device ",
        " encrypt failed, please see log for more information.(" ++ toString code ++ ")", ?_⟩
      · simp [onEncryptResult, hc]
      · simp only [deviceDisplay, String.empty_append, String.append_assoc]
  · intro h1
    simp only [kUserCancelled] at h1
    by_cases h0 : -code = kSuccess
    · refine ⟨"Device ", " has been preencrypt, please reboot to finish encryption.", ?_⟩
      simp only [showPreEncryptError, if_pos h0]
      simp only [deviceDisplay, String.empty_append, String.append_assoc]
    · have c1 : ¬(-code = kUserCancelled) := by simp only [kUserCancelled]; omega
      refine ⟨"Device ",
        " preencrypt failed, please see log for more information.(" ++ toString code ++ ")", ?_⟩
      simp only [showPreEncryptError, if_neg h0, if_neg c1]
      simp only [deviceDisplay, String.empty_append, String.append_assoc]
  · intro h1 h2
    simp only [kUserCancelled] at h1
    simp only [kErrorWrongPassphrase] at h2
    by_cases h0 : -code = kSuccess
    · refine ⟨"Device ", " has been decrypted", ?_⟩
      simp only [showDecryptError, if_pos h0]
      simp only [deviceDisplay, String.empty_append, String.append_assoc]
    · have c1 : ¬(-code = kUserCancelled) := by simp only [kUserCancelled]; omega
      have c2 : ¬(-code = kErrorWrongPassphrase) := by simp only [kErrorWrongPassphrase]; omega
      refine ⟨"Device ",
        " Decrypt failed, please see log for more information.(" ++ toString code ++ ")", ?_⟩
      simp only [showDecryptError, if_neg h0, if_neg c1, if_neg c2]
      simp only [deviceDisplay, String.empty_append, String.append_assoc]
  · intro h1 h2
    simp only [kUserCancelled] at h1
    simp only [kErrorChangePassphraseFailed] at h2
    by_cases h0 : -code = kSuccess
    · refine ⟨"", "'s passphrase has been changed", ?_⟩
      simp only [showChgPwdError, if_pos h0]
      simp only [deviceDisplay, String.empty_append, String.append_assoc]
    · have c1 : ¬(-code = kUserCancelled) := by simp only [kUserCancelled]; omega
      have c2 : ¬(-code = kErrorChangePassphraseFailed) := by
        simp only [kErrorChangePassphraseFailed]; omega
      refine ⟨"Device ",
        " change passphrase failed, please see log for more information.(" ++ toString code ++ ")", ?_⟩
      simp only [showChgPwdError, if_neg h0, if_neg c1, if_neg c2]
      simp only [deviceDisplay, String.empty_append, String.append_assoc]
  · intro hc
    have hnc : ¬(containsKey dev s.encryptDialogs = true) := by simp [hc]
    refine ⟨[UIAction.updateProgress dev p, UIAction.showProgressDialog dev], ?_⟩
    unfold onEncryptProgress
    simp [if_neg hnc, deviceDisplay]
  · intro hc
    have hnc : ¬(containsKey dev s.decryptDialogs = true) := by simp [hc]
    refine ⟨[UIAction.updateProgress dev p, UIAction.showProgressDialog dev], ?_⟩
    unfold onDecryptProgress
    simp [if_neg hnc, deviceDisplay]
  · refine ⟨"Device ", " has been preencrypt, please reboot to finish encryption.",
      if choice = 1 then [UIAction.requestReboot] else [], ?_⟩
    unfold showRebootOnPreencrypted
    simp only [deviceDisplay, String.empty_append, String.append_assoc]
  · refine ⟨"Please reboot to decrypt device ", ".",
      if choice = 1 then [UIAction.requestReboot] else [], ?_⟩
    unfold showRebootOnDecrypted
    simp only [deviceDisplay, String.empty_append, String.append_assoc]

theorem acquirePassphrase_shape (env : AcquireEnv) (c0 : Bool) :
    (acquirePassphrase env c0 = ("", true)) ∨ (acquirePassphrase env c0).2 = c0 := by
  unfold acquirePassphrase
  split_ifs <;> simp

theorem acquirePassphraseByPIN_shape (env : AcquireEnv) (c0 : Bool) :
    (acquirePassphraseByPIN env c0 = ("", true)) ∨ (acquirePassphraseByPIN env c0).2 = c0 := by
  unfold acquirePassphraseByPIN
  split_ifs <;> simp

theorem acquirePassphraseByTPM_shape (env : AcquireEnv) (c0 : Bool) :
    (acquirePassphraseByTPM env c0).2 = c0 := rfl

theorem both_falsy_helper (pwd : String) (c c0 : Bool) (advs : List Advisory)
    (hshape : (pwd = "" ∧ c = true) ∨ c = c0) :
    ((if pwd = "" ∧ c = false then (⟨true, pwd, true, advs⟩ : AcquireResult)
      else ⟨true, pwd, c, []⟩).pwd ≠ "" ∨
     (if pwd = "" ∧ c = false then (⟨true, pwd, true, advs⟩ : AcquireResult)
      else ⟨true, pwd, c, []⟩).cancelled = true) ∧
    (c0 = false →
      Xor' ((if pwd = "" ∧ c = false then (⟨true, pwd, true, advs⟩ : AcquireResult)
             else ⟨true, pwd, c, []⟩).pwd ≠ "")
        ((if pwd = "" ∧ c = false then (⟨true, pwd, true, advs⟩ : AcquireResult)
          else ⟨true, pwd, c, []⟩).cancelled = true)) := by
  by_cases hpost : pwd = "" ∧ c = false
  · rw [if_pos hpost]
    refine ⟨Or.inr rfl, fun _ => ?_⟩
    simp [Xor', hpost.1]
  · rw [if_neg hpost]
    constructor
    · by_cases hpwd : pwd = ""
      · cases hcv : c with
        | false => exact absurd ⟨hpwd, hcv⟩ hpost
        | true => exact Or.inr rfl
      · exact Or.inl hpwd
    · intro hc0
      subst hc0
      rcases hshape with ⟨hp, hct⟩ | hcf
      · subst hct
        simp [Xor', hp]
      · subst hcf
        have hpwd : ¬ pwd = "" := fun hp => hpost ⟨hp, rfl⟩
        simp [Xor', hpwd]

/-- C1 fails as stated: when the caller passes the cancelled slot already
set to true and the password-only dialog is accepted with a non-empty
passphrase, the hook returns true with a non-empty passphrase AND
cancelled = true — both hold, so "exactly one" is violated. -/
theorem acquire_exactly_one_cex :
    (onAcquireDevicePwd ⟨SecKeyType.kPasswordOnly, 1, "abc123", 0, false, "", ""⟩
        "/dev/sda1" false false "" true).ret = true ∧
    ¬ Xor' ((onAcquireDevicePwd ⟨SecKeyType.kPasswordOnly, 1, "abc123", 0, false, "", ""⟩
          "/dev/sda1" false false "" true).pwd ≠ "")
        ((onAcquireDevicePwd ⟨SecKeyType.kPasswordOnly, 1, "abc123", 0, false, "", ""⟩
          "/dev/sda1" false false "" true).cancelled = true) := by
  constructor
  · rfl
  · decide

/-- C1 amended: whenever the hook returns true, at least one of {non-empty
passphrase, cancelled = true} holds (never both falsy); and when the caller
passes the cancelled slot in as false, exactly one of the two holds. -/
theorem acquire_never_both_falsy (env : AcquireEnv) (dev : String) (pn cn : Bool)
    (pwd0 : String) (c0 : Bool)
    (h : (onAcquireDevicePwd env dev pn cn pwd0 c0).ret = true) :
    ((onAcquireDevicePwd env dev pn cn pwd0 c0).pwd ≠ "" ∨
      (onAcquireDevicePwd env dev pn cn pwd0 c0).cancelled = true) ∧
    (c0 = false →
      Xor' ((onAcquireDevicePwd env dev pn cn pwd0 c0).pwd ≠ "")
        ((onAcquireDevicePwd env dev pn cn pwd0 c0).cancelled = true)) := by
  cases pn with
  | true => simp [onAcquireDevicePwd] at h
  | false =>
  cases cn with
  | true => simp [onAcquireDevicePwd] at h
  | false =>
  cases hk : env.keyType with
  | kUnknownKey => simp [onAcquireDevicePwd, hk] at h
  | kPasswordOnly =>
    rcases hsub : acquirePassphrase env c0 with ⟨pwd, c⟩
    have hshape := acquirePassphrase_shape env c0
    rw [hsub] at hshape
    simp only [Prod.mk.injEq] at hshape
    simp only [onAcquireDevicePwd, hk, hsub]
    exact both_falsy_helper pwd c c0 _ hshape
  | kTPMAndPIN =>
    rcases hsub : acquirePassphraseByPIN env c0 with ⟨pwd, c⟩
    have hshape := acquirePassphraseByPIN_shape env c0
    rw [hsub] at hshape
    simp only [Prod.mk.injEq] at hshape
    simp only [onAcquireDevicePwd, hk, hsub]
    exact both_falsy_helper pwd c c0 _ hshape
  | kTPMOnly =>
    rcases hsub : acquirePassphraseByTPM env c0 with ⟨pwd, c⟩
    have hshape := acquirePassphraseByTPM_shape env c0
    rw [hsub] at hshape
    simp only [onAcquireDevicePwd, hk, hsub]
    exact both_falsy_helper pwd c c0 _ (Or.inr hshape)

theorem acquire_never_both_falsy_witness :
    ((onAcquireDevicePwd ⟨SecKeyType.kPasswordOnly, 1, "abc123", 0, false, "", ""⟩
        "/dev/sda1" false false "" false).pwd ≠ "" ∨
      (onAcquireDevicePwd ⟨SecKeyType.kPasswordOnly, 1, "abc123", 0, false, "", ""⟩
        "/dev/sda1" false false "" false).cancelled = true) ∧
    (false = false →
      Xor' ((onAcquireDevicePwd ⟨SecKeyType.kPasswordOnly, 1, "abc123", 0, false, "", ""⟩
            "/dev/sda1" false false "" false).pwd ≠ "")
        ((onAcquireDevicePwd ⟨SecKeyType.kPasswordOnly, 1, "abc123", 0, false, "", ""⟩
            "/dev/sda1" false false "" false).cancelled = true)) :=
  acquire_never_both_falsy ⟨SecKeyType.kPasswordOnly, 1, "abc123", 0, false, "", ""⟩
    "/dev/sda1" false false "" false rfl

/-- C2: the synchronous hook returns false exactly when an output pointer is
null or the resolved credential scheme is unresolved; in every other case —
including a cancelled dialog — it returns true. -/
theorem acquire_ret_false_iff (env : AcquireEnv) (dev : String) (pn cn : Bool)
    (pwd0 : String) (c0 : Bool) :
    (onAcquireDevicePwd env dev pn cn pwd0 c0).ret = false ↔
      (pn = true ∨ cn = true ∨ env.keyType = SecKeyType.kUnknownKey) := by
  cases pn with
  | true => simp [onAcquireDevicePwd]
  | false =>
  cases cn with
  | true => simp [onAcquireDevicePwd]
  | false =>
  cases hk : env.keyType with
  | kUnknownKey => simp [onAcquireDevicePwd, hk]
  | kPasswordOnly =>
    rcases hsub : acquirePassphrase env c0 with ⟨pwd, c⟩
    simp only [onAcquireDevicePwd, hk, hsub]
    split_ifs <;> simp_all
  | kTPMAndPIN =>
    rcases hsub : acquirePassphraseByPIN env c0 with ⟨pwd, c⟩
    simp only [onAcquireDevicePwd, hk, hsub]
    split_ifs <;> simp_all
  | kTPMOnly =>
    rcases hsub : acquirePassphraseByTPM env c0 with ⟨pwd, c⟩
    simp only [onAcquireDevicePwd, hk, hsub]
    split_ifs <;> simp_all

/-- C9: neither the hook nor any of the three sub-flows ever writes false
into the cancelled slot — it is only ever set to true, so the slot either
keeps the caller's value or ends up true. -/
theorem acquire_cancelled_monotone (env : AcquireEnv) (dev : String) (pn cn : Bool)
    (pwd0 : String) (c0 : Bool) :
    ((onAcquireDevicePwd env dev pn cn pwd0 c0).cancelled = c0 ∨
      (onAcquireDevicePwd env dev pn cn pwd0 c0).cancelled = true) ∧
    ((acquirePassphrase env c0).2 = c0 ∨ (acquirePassphrase env c0).2 = true) ∧
    ((acquirePassphraseByPIN env c0).2 = c0 ∨ (acquirePassphraseByPIN env c0).2 = true) ∧
    ((acquirePassphraseByTPM env c0).2 = c0 ∨ (acquirePassphraseByTPM env c0).2 = true) := by
  have hP : (acquirePassphrase env c0).2 = c0 ∨ (acquirePassphrase env c0).2 = true := by
    unfold acquirePassphrase
    split_ifs <;> simp
  have hPin : (acquirePassphraseByPIN env c0).2 = c0 ∨ (acquirePassphraseByPIN env c0).2 = true := by
    unfold acquirePassphraseByPIN
    split_ifs <;> simp
  refine ⟨?_, hP, hPin, Or.inl rfl⟩
  cases pn with
  | true => simp [onAcquireDevicePwd]
  | false =>
  cases cn with
  | true => simp [onAcquireDevicePwd]
  | false =>
  cases hk : env.keyType with
  | kUnknownKey => simp [onAcquireDevicePwd, hk]
  | kPasswordOnly =>
    rcases hsub : acquirePassphrase env c0 with ⟨pwd, c⟩
    rw [hsub] at hP
    simp only [Prod.snd] at hP
    simp only [onAcquireDevicePwd, hk, hsub]
    split_ifs with hnull
    · simp at hnull
    all_goals first
      | exact Or.inr rfl
      | exact hP
  | kTPMAndPIN =>
    rcases hsub : acquirePassphraseByPIN env c0 with ⟨pwd, c⟩
    rw [hsub] at hPin
    simp only [Prod.snd] at hPin
    simp only [onAcquireDevicePwd, hk, hsub]
    split_ifs with hnull
    · simp at hnull
    all_goals first
      | exact Or.inr rfl
      | exact hPin
  | kTPMOnly =>
    rcases hsub : acquirePassphraseByTPM env c0 with ⟨pwd, c⟩
    have hc : c = c0 := by
      have := acquirePassphraseByTPM_shape env c0
      rw [hsub] at this
      exact this
    simp only [onAcquireDevicePwd, hk, hsub]
    split_ifs with hnull
    · simp at hnull
    all_goals first
      | exact Or.inr rfl
      | exact Or.inl hc
